import Mathlib

/-!
Shallow embedding of the ecommerce-data-formatting repository
(src/src/core/import_formatter.py, export_formatter.py,
merge_sample_formatter.py, extract_missing_formatter.py).

Cells read from a spreadsheet are modelled as `Option String`
(`none` is a null/NaN cell).  Python string operations are modelled over
ASCII: `str.lower` becomes `Char.toLower`, the regex class `\s` and
`str.strip` use the ASCII whitespace set.
-/

namespace EcomFmt

/-- ASCII whitespace, the characters matched by Python `\s` / stripped by
`str.strip` in the ASCII range: space, tab, newline, carriage return,
vertical tab, form feed. -/
def isPySpace (c : Char) : Bool :=
  c = ' ' || c = Char.ofNat 9 || c = Char.ofNat 10 || c = Char.ofNat 13 ||
  c = Char.ofNat 11 || c = Char.ofNat 12

/-- Python `str.strip()`: drop leading and trailing whitespace. -/
def pyStrip (s : String) : String :=
  (((s.toList.dropWhile isPySpace).reverse.dropWhile isPySpace).reverse).asString

/-- Lower-cased character list of a string (models `str.lower()` /
`re.I` matching over ASCII). -/
def lowerChars (s : String) : List Char :=
  s.toList.map Char.toLower

/-- Substring test: `pat` occurs as a contiguous subsequence of `l` (models
Python re.search of a plain-text pattern). -/
def containsSeq (pat : List Char) : List Char → Bool
  | [] => pat.isEmpty
  | c :: t => pat.isPrefixOf (c :: t) || containsSeq pat t

/-- First-occurrence deduplication with a seen-accumulator (models
`pandas.Series.unique`, which keeps the first occurrence of each value). -/
def uniqFirst (seen : List String) : List String → List String
  | [] => []
  | x :: xs => if x ∈ seen then uniqFirst seen xs else x :: uniqFirst (x :: seen) xs

/-- Look up the cell of column `c` in a row whose values are positionally
aligned with the column list (models label-based indexing of a dataframe
row). Returns `none` when the column is absent or the row is short. -/
def getCell : List String → List (Option String) → String → Option String
  | [], _, _ => none
  | _ :: _, [], _ => none
  | c0 :: cs, v :: vs, c => if c0 = c then v else getCell cs vs c

/-! ## import_formatter.py: identifier resolution (`find_style_column`) -/

/-- Regex `^style[_\s\-]?id$` (case-insensitive), applied to the lower-cased
characters of a column name: exactly `styleid`, or `style` and `id` joined by
a single underscore, hyphen or whitespace character.  An optional trailing
newline is accepted, as Python `$` also matches just before a final newline. -/
def matchStyleIdCore : List Char → Bool
  | ['s', 't', 'y', 'l', 'e', 'i', 'd'] => true
  | ['s', 't', 'y', 'l', 'e', sep, 'i', 'd'] => sep = '_' || sep = '-' || isPySpace sep
  | _ => false

/-- Regex `^style[_\s\-]?id$` with the Python `$`-before-final-newline rule. -/
def matchStyleIdPat (l : List Char) : Bool :=
  matchStyleIdCore l ||
    (match l.reverse with
     | c :: rest => c = Char.ofNat 10 && matchStyleIdCore rest.reverse
     | [] => false)

/-- Regex `^sku$` (case-insensitive) on lower-cased characters, with the
Python `$`-before-final-newline rule. -/
def matchSkuPat (l : List Char) : Bool :=
  l = ['s', 'k', 'u'] || l = ['s', 'k', 'u', Char.ofNat 10]

/-- Regex `styleid` (case-insensitive, unanchored): substring search on the
lower-cased characters. -/
def matchStyleidSub (l : List Char) : Bool :=
  containsSeq ['s', 't', 'y', 'l', 'e', 'i', 'd'] l

/-- The column name matches one of the three identifier patterns of
`find_style_column` (the inner `for p, suggestion in patterns` loop). -/
def colMatchesAny (c : String) : Bool :=
  [matchStyleIdPat, matchSkuPat, matchStyleidSub].any (fun p => p (lowerChars c))

/-- Model of find_style_column: scan the columns left to right and return
the first one matching any identifier pattern; if none matches, return the
first column as a suggestion. -/
def findStyleColumn (cols : List String) : Option String × Option String :=
  match cols.find? colMatchesAny with
  | some c => (some c, none)
  | none =>
    match cols with
    | [] => (none, none)
    | c0 :: _ => (none, some c0)

/-! ## import_formatter.py: column canonicalization (`normalize_col` and the
registration loop of `merge_sizechart_productdetails`, lines 227-234) -/

/-- Model of normalize_col: lower-case the column name and remove all
whitespace.  The normalized key is kept as a character list. -/
def normalizeCol (s : String) : List Char :=
  (s.toList.map Char.toLower).filter (fun c => !isPySpace c)

/-- The canonicalization state: `canonical_cols` (an insertion-ordered map
from normalized key to the first-seen display spelling, as Python dicts
preserve insertion order) and `ordered_columns`. -/
structure CanonState where
  canonMap : List (List Char × String)
  ordered : List String
deriving Repr, DecidableEq

/-- Dict lookup in the canonical-columns map. -/
def lookupKey : List (List Char × String) → List Char → Option String
  | [], _ => none
  | p :: m, k => if p.1 = k then some p.2 else lookupKey m k

/-- One registration step: `key = normalize_col(col); if key not in
canonical_cols: canonical_cols[key] = col; ordered_columns.append(col)`.
Returns the canonical display spelling `canonical_cols[key]` (the value the
later `rename` lambda reads) together with the updated state. -/
def registerCol (st : CanonState) (s : String) : String × CanonState :=
  match lookupKey st.canonMap (normalizeCol s) with
  | some d => (d, st)
  | none => (s, ⟨st.canonMap ++ [(normalizeCol s, s)], st.ordered ++ [s]⟩)

/-! ## import_formatter.py: `aggregate_list` -/

/-- The values the replace step of aggregate_list maps to null: exact,
case-sensitive string equality with the empty string or the lowercase
literals nan and none. -/
def isExcludedVal (s : String) : Bool :=
  s = "" || s = "nan" || s = "none"

/-- The qualifying values of a series: drop nulls, trim each value, then
drop the values `replace` nulled out (followed by the second `dropna`). -/
def qualifyingVals (series : List (Option String)) : List String :=
  ((series.filterMap id).map pyStrip).filter (fun s => !isExcludedVal s)

/-- Model of aggregate_list: drop nulls, trim, null out the placeholder
literals, drop again, deduplicate keeping first occurrences, then join with
a comma when non-empty and return null otherwise. -/
def aggregateList (series : List (Option String)) : Option String :=
  let vals := uniqFirst [] (qualifyingVals series)
  if vals.isEmpty then none else some (String.intercalate "," vals)

/-! ## import_formatter.py: `infer_column_type` and the Types sheet -/

/-- Case-insensitive re.search of a plain-text pattern: the pattern occurs
in the lower-cased column name. -/
def containsCI (colName : String) (pat : String) : Bool :=
  containsSeq pat.toList (lowerChars colName)

/-- Model of infer_column_type: scan the patterns image, img, url, cdn in
order; the first pattern found case-insensitively makes the type "image",
otherwise "string". -/
def inferColumnType (colName : String) : String :=
  match ["image", "img", "url", "cdn"].find? (containsCI colName) with
  | some _ => "image"
  | none => "string"

/-- Header of the Types sheet: `["Column1", "Column2"] + ordered_columns`. -/
def typesHeader (ordered : List String) : List String :=
  "Column1" :: "Column2" :: ordered

/-- The three data rows of the Types sheet, aligned with `typesHeader`.
`types_df.loc[r, col]` is assigned only for canonical columns, so the
`Column1`/`Column2` cells stay null; row 0 holds the name of each canonical
column, row 1 the literal "mandatory", row 2 the inferred type. -/
def typesRows (ordered : List String) : List (List (Option String)) :=
  [ none :: none :: ordered.map some,
    none :: none :: ordered.map (fun _ => some "mandatory"),
    none :: none :: ordered.map (fun c => some (inferColumnType c)) ]

/-! ## import_formatter.py: final Values assembly (lines 287-292) -/

/-- A dataframe: a column list and rows positionally aligned with it. -/
structure DFr where
  cols : List String
  rows : List (List (Option String))
deriving Repr, DecidableEq

/-- First assembly step (the for loop over ordered_columns): append each
canonical column missing from the dataframe as a null column. -/
def addMissingCols (df : DFr) (ordered : List String) : DFr :=
  ordered.foldl
    (fun acc c =>
      if c ∈ acc.cols then acc
      else ⟨acc.cols ++ [c], acc.rows.map (fun r => r ++ [none])⟩)
    df

/-- Second assembly step, the selection final_df[ordered_columns]: keep the
canonical columns in canonical order (label-based lookup per row). -/
def selectCols (df : DFr) (ordered : List String) : DFr :=
  ⟨ordered, df.rows.map (fun r => ordered.map (getCell df.cols r))⟩

/-- Third assembly step, the where(notnull, empty) call: replace every null
cell with empty text. -/
def fillEmpty (df : DFr) : DFr :=
  ⟨df.cols, df.rows.map (fun r => r.map (fun v => some (v.getD "")))⟩

/-- Lines 287-292: add missing canonical columns, reindex to canonical
order, replace nulls with empty text. -/
def finalizeValues (df : DFr) (ordered : List String) : DFr :=
  fillEmpty (selectCols (addMissingCols df ordered) ordered)

/-! ## import_formatter.py: the per-sheet loop of
`merge_sizechart_productdetails` (lines 181-276) -/

/-- A size-chart sheet, as far as identifier resolution is concerned: its
sheet name and the column names of the parsed size dataframe. -/
structure SheetM where
  sname : String
  scols : List String
deriving Repr, DecidableEq

/-- A single-quote character, kept as a named constant. -/
def sq : String := String.singleton (Char.ofNat 39)

/-- Column list shown in the diagnostic: the first five column names joined
with a comma, plus an ellipsis when more than five columns exist. -/
def mkColumnsList (cols : List String) : String :=
  String.intercalate ", " (cols.take 5) ++ (if cols.length > 5 then ", ..." else "")

/-- The fatal error message of lines 202-205, built exactly as the f-string
concatenation does. -/
def styleErrMsg (sheetName : String) (cols : List String) : String :=
  "Could not find style ID column in " ++ sq ++ sheetName ++ sq ++ ". " ++
  "Expected column like " ++ sq ++ "style_id" ++ sq ++ ", " ++ sq ++ "SKU" ++
  sq ++ ", or " ++ sq ++ "styleId" ++ sq ++ ". " ++
  "Found: [" ++ mkColumnsList cols ++ "]. " ++
  "Rename your identifier column to match one of these patterns."

/-- The `for sheet in size_sheets` loop, restricted to identifier
resolution: a sheet whose columns resolve is kept (its dataframe is
appended to `final_dfs`); a sheet that does not resolve aborts the whole
run with `styleErrMsg` when its name equals the name of the first sheet
(`sheet == size_sheets[0]` compares names), and is skipped otherwise. -/
def processLoop (firstName : String) : List SheetM → Except String (List SheetM)
  | [] => Except.ok []
  | s :: rest =>
    match (findStyleColumn s.scols).1 with
    | none =>
      if s.sname = firstName then Except.error (styleErrMsg s.sname s.scols)
      else processLoop firstName rest
    | some _ =>
      match processLoop firstName rest with
      | Except.ok tail => Except.ok (s :: tail)
      | Except.error e => Except.error e

/-- Outcome of the merge driver: the success flag and error message of
`ImportResult`, and the data handed to the Excel writer (`none` when the
function returns before `pd.ExcelWriter` runs, so no workbook is written). -/
structure ImportOutcome where
  isuccess : Bool
  ierror : Option String
  ioutput : Option (List SheetM)
deriving Repr, DecidableEq

/-- The merge driver around the loop (lines 164-276): an empty sheet list
fails before the loop; a loop error is returned with no output; if no sheet
resolved an identifier (`any_valid_data` stayed false) the run fails;
otherwise the accepted sheets reach the writer. -/
def runMergeModel (sheets : List SheetM) : ImportOutcome :=
  match sheets with
  | [] => ⟨false, some "No valid sheets found in size chart after exclusions", none⟩
  | s0 :: _ =>
    match processLoop s0.sname sheets with
    | Except.error msg => ⟨false, some msg, none⟩
    | Except.ok valids =>
      if valids.isEmpty then
        ⟨false, some "No valid data found in any sheet. Check that files contain style ID columns.", none⟩
      else ⟨true, none, some valids⟩

/-! ## export_formatter.py: `format_excel_file` (lines 116-129) -/

/-- The output column list: template columns, plus the input-only columns in
input order when `preserve_unknown_columns` is set. -/
def outputColumnsFor (inputCols targetCols : List String) (preserveUnknown : Bool) :
    List String :=
  if preserveUnknown then
    targetCols ++ inputCols.filter (fun c => c ∉ targetCols)
  else targetCols

/-- The reindex of df_input over the output columns followed by the Excel
write (which writes null cells as empty text): each row is rebuilt over the
output columns, reading the input cell by label and writing empty text
where the column is absent from the input. -/
def formatTable (df : DFr) (targetCols : List String) (preserveUnknown : Bool) :
    List String × List (List String) :=
  let outCols := outputColumnsFor df.cols targetCols preserveUnknown
  (outCols, df.rows.map (fun r => outCols.map (fun c => (getCell df.cols r c).getD "")))

/-! ## merge_sample_formatter.py: `merge_sample_output` (lines 112-129) -/

/-- A table indexed by its style-id column (`set_index(style_id_col)`):
remaining columns, and rows as key/values pairs aligned with the columns. -/
structure STable where
  scols : List String
  srows : List (String × List (Option String))
deriving Repr, DecidableEq

/-- Column intersection of the two indexed tables: the main-table columns
also present in the sample table. -/
def commonColumns (mainCols sampleCols : List String) : List String :=
  mainCols.filter (fun c => c ∈ sampleCols)

/-- The row assignment `output_df_indexed.loc[style_id, common_columns] =
sample_df_indexed.loc[style_id, common_columns]` at one main row: cells of
common columns take the value of the sample row (by label), any other cell is
kept. -/
def overwriteCells (common mainCols : List String) (mainRow : List (Option String))
    (sampleCols : List String) (sampleRow : List (Option String)) :
    List (Option String) :=
  (mainCols.zip mainRow).map
    (fun p => if p.1 ∈ common then getCell sampleCols sampleRow p.1 else p.2)

/-- One iteration of `for style_id in sample_df_indexed.index`: when the key
is present in the main index, every main row carrying that key is
overwritten on the common columns. -/
def applySample (common : List String) (sampleCols : List String) (acc : STable)
    (entry : String × List (Option String)) : STable :=
  if acc.srows.any (fun r => r.1 = entry.1) then
    ⟨acc.scols,
     acc.srows.map (fun r =>
       if r.1 = entry.1 then
         (r.1, overwriteCells common acc.scols r.2 sampleCols entry.2)
       else r)⟩
  else acc

/-- The overwrite loop of merge_sample_output over the whole sample table. -/
def mergeSampleTables (main sample : STable) : STable :=
  sample.srows.foldl (applySample (commonColumns main.scols sample.scols) sample.scols) main

/-! ## extract_missing_formatter.py: `extract_rows_with_missing_ai_flag`
(lines 116-174) -/

/-- One row of the output workbook, restricted to the two columns the
function reads: the style-id cell and the AI-flag cell. -/
structure ORow where
  okey : Option String
  oflag : Option String
deriving Repr, DecidableEq

/-- Model of astype(str) on one cell: a null cell prints as "nan". -/
def astypeStr : Option String → String
  | none => "nan"
  | some s => s

/-- Flag-missing test of the extraction (isna or strips to empty): the flag
cell is null, or its text strips to empty. -/
def flagMissingB (r : ORow) : Bool :=
  r.oflag.isNone || pyStrip (astypeStr r.oflag) = ""

/-- Missing-style-id set, kept as the list of non-null keys of flag-missing
rows (only emptiness, cardinality and membership of the set are ever
used). -/
def missingStyleIds (outRows : List ORow) : List String :=
  (outRows.filter flagMissingB).filterMap (fun r => r.okey)

/-- The input workbook, as far as the function reads it: the Values rows
(style-id cell and remaining cells) and the Types rows. -/
structure InputWb where
  valuesRows : List (Option String × List (Option String))
  typesRows : List (List (Option String))
deriving Repr, DecidableEq

/-- Outcome of the extraction: the `ExtractMissingResult` fields and the
sheets handed to the Excel writer (`none` when the function returns before
`pd.ExcelWriter` runs, so no result file is written). -/
structure ExtractOutcome where
  esuccess : Bool
  epath : Option String
  rowsExtracted : Nat
  etypesRows : Nat
  missingCount : Nat
  written : Option (List (List (Option String)) × List (Option String × List (Option String)))
deriving Repr, DecidableEq

/-- Model of extract_rows_with_missing_ai_flag from line 116 on (after the
column checks): compute the missing-flag key set from the output workbook; when it
is empty, return success with zero counts without touching the input
workbook; otherwise filter the input Values rows by key membership
(`isin`: a null key never matches) and write Types plus the filtered Values. -/
def extractModel (outRows : List ORow) (input : InputWb) (resultPath : String) :
    ExtractOutcome :=
  let missing := missingStyleIds outRows
  if missing.isEmpty then
    ⟨true, some resultPath, 0, 0, 0, none⟩
  else
    let filtered := input.valuesRows.filter
      (fun vr => match vr.1 with
        | none => false
        | some k => k ∈ missing)
    ⟨true, some resultPath, filtered.length, input.typesRows.length,
      (uniqFirst [] missing).length, some (input.typesRows, filtered)⟩

/-! ## Helper lemmas -/

theorem find?_append_left {α} {p : α → Bool} {l1 : List α} (l2 : List α) {a : α}
    (h : l1.find? p = some a) : (l1 ++ l2).find? p = some a := by
  induction l1 with
  | nil => simp at h
  | cons x xs ih =>
    cases hx : p x with
    | true =>
      rw [List.find?_cons_of_pos _ hx] at h
      rw [List.cons_append, List.find?_cons_of_pos _ hx]
      exact h
    | false =>
      rw [List.find?_cons_of_neg _ (by simp [hx])] at h
      rw [List.cons_append, List.find?_cons_of_neg _ (by simp [hx])]
      exact ih h

theorem find?_append_right {α} {p : α → Bool} {l1 : List α} (l2 : List α)
    (h : ∀ x ∈ l1, p x = false) : (l1 ++ l2).find? p = l2.find? p := by
  induction l1 with
  | nil => rfl
  | cons x xs ih =>
    have hx : p x = false := h x (by simp)
    rw [List.cons_append, List.find?_cons_of_neg _ (by simp [hx])]
    exact ih (fun y hy => h y (by simp [hy]))

theorem lookupKey_append_of_none {m1 : List (List Char × String)} {k : List Char}
    (m2 : List (List Char × String)) (h : lookupKey m1 k = none) :
    lookupKey (m1 ++ m2) k = lookupKey m2 k := by
  induction m1 with
  | nil => rfl
  | cons p m ih =>
    by_cases hp : p.1 = k
    · simp [lookupKey, hp] at h
    · simp only [lookupKey, hp, if_false] at h
      simp only [List.cons_append, lookupKey, hp, if_false]
      exact ih h

theorem lookupKey_append_of_some {m1 : List (List Char × String)} {k : List Char}
    {d : String} (m2 : List (List Char × String)) (h : lookupKey m1 k = some d) :
    lookupKey (m1 ++ m2) k = some d := by
  induction m1 with
  | nil => simp [lookupKey] at h
  | cons p m ih =>
    by_cases hp : p.1 = k
    · simp only [lookupKey, hp, if_true] at h
      simp only [List.cons_append, lookupKey, hp, if_true]
      exact h
    · simp only [lookupKey, hp, if_false] at h
      simp only [List.cons_append, lookupKey, hp, if_false]
      exact ih h

theorem registerCol_of_some {st : CanonState} {s d : String}
    (h : lookupKey st.canonMap (normalizeCol s) = some d) :
    registerCol st s = (d, st) := by
  unfold registerCol; rw [h]

theorem registerCol_of_none {st : CanonState} {s : String}
    (h : lookupKey st.canonMap (normalizeCol s) = none) :
    registerCol st s
      = (s, ⟨st.canonMap ++ [(normalizeCol s, s)], st.ordered ++ [s]⟩) := by
  unfold registerCol; rw [h]

theorem uniqFirst_nil_iff (l : List String) : uniqFirst [] l = [] ↔ l = [] := by
  cases l with
  | nil => simp [uniqFirst]
  | cons x xs => simp [uniqFirst]

theorem take_length_append {α} (l1 l2 : List α) : (l1 ++ l2).take l1.length = l1 := by
  induction l1 with
  | nil => simp
  | cons x xs ih => simp [ih]

/-! ## Claim theorems -/

/-- Claim C1, counterexample: on the column list
`["StyleIdentifier", "Style_ID"]` the resolver returns `"StyleIdentifier"`
(the earlier column, matching only the loose substring rule), not
`"Style_ID"` (the later column, matching the exact rule), refuting the
claimed rule-priority order. -/
theorem claim_C1_cex :
    (findStyleColumn ["StyleIdentifier", "Style_ID"]).1 = some "StyleIdentifier"
    ∧ (findStyleColumn ["StyleIdentifier", "Style_ID"]).1 ≠ some "Style_ID" := by
  decide

/-- Claim C1, amended: the resolver scans columns left to right and returns
the first column matching any of the three identifier rules; column
position dominates rule priority.  In particular, for a list containing
"StyleIdentifier" (earlier) and "Style_ID" (later) it returns
"StyleIdentifier". -/
theorem claim_C1_amended (pre : List String) (c : String) (post : List String)
    (hpre : ∀ x ∈ pre, colMatchesAny x = false) (hc : colMatchesAny c = true) :
    (findStyleColumn (pre ++ c :: post)).1 = some c
    ∧ (findStyleColumn ["StyleIdentifier", "Style_ID"]).1 = some "StyleIdentifier" := by
  constructor
  · unfold findStyleColumn
    rw [find?_append_right _ hpre]
    simp [List.find?, hc]
  · decide

/-- Claim C1, amended, witness at a concrete input: in
`["Colour", "SKU", "UK Size"]` the first matching column is `"SKU"`. -/
theorem claim_C1_amended_witness :
    (findStyleColumn (["Colour"] ++ "SKU" :: ["UK Size"])).1 = some "SKU" :=
  (claim_C1_amended ["Colour"] "SKU" ["UK Size"]
    (by intro x hx; fin_cases hx; decide) (by decide)).1

/-- Claim C2: column registration is idempotent and first-seen-wins.
Registering a name returns the stored display spelling; registering it (or
any case/whitespace variant of it) again returns the same spelling and
leaves the state unchanged; existing display names and positions are never
changed; a new key appends the original spelling. -/
theorem claim_C2 (st : CanonState) (s : String) :
    registerCol (registerCol st s).2 s = registerCol st s
    ∧ (∀ s2, normalizeCol s2 = normalizeCol s →
        registerCol (registerCol st s).2 s2 = registerCol st s)
    ∧ (registerCol st s).2.ordered.take st.ordered.length = st.ordered
    ∧ (∀ k d0, lookupKey st.canonMap k = some d0 →
        lookupKey (registerCol st s).2.canonMap k = some d0)
    ∧ (lookupKey st.canonMap (normalizeCol s) = none →
        (registerCol st s).1 = s
        ∧ (registerCol st s).2.ordered = st.ordered ++ [s])
    ∧ (∀ d0, lookupKey st.canonMap (normalizeCol s) = some d0 →
        (registerCol st s).1 = d0 ∧ (registerCol st s).2 = st) := by
  cases h : lookupKey st.canonMap (normalizeCol s) with
  | some d0 =>
    have hreg : registerCol st s = (d0, st) := registerCol_of_some h
    refine ⟨?_, ?_, ?_, ?_, ?_, ?_⟩
    · rw [hreg]; exact hreg
    · intro s2 hs2
      rw [hreg]
      exact registerCol_of_some (by rw [hs2]; exact h)
    · rw [hreg]; simp
    · intro k dd hk; rw [hreg]; exact hk
    · intro hn; cases hn
    · intro dd hd
      rw [hreg]
      exact ⟨Option.some.inj hd, rfl⟩
  | none =>
    have hreg : registerCol st s
        = (s, ⟨st.canonMap ++ [(normalizeCol s, s)], st.ordered ++ [s]⟩) :=
      registerCol_of_none h
    have hlook : ∀ s2, normalizeCol s2 = normalizeCol s →
        lookupKey (st.canonMap ++ [(normalizeCol s, s)]) (normalizeCol s2) = some s := by
      intro s2 hs2
      rw [hs2, lookupKey_append_of_none _ h]
      simp [lookupKey]
    refine ⟨?_, ?_, ?_, ?_, ?_, ?_⟩
    · rw [hreg]; exact registerCol_of_some (hlook s rfl)
    · intro s2 hs2
      rw [hreg]
      exact registerCol_of_some (hlook s2 hs2)
    · rw [hreg]; exact take_length_append _ _
    · intro k dd hk; rw [hreg]; exact lookupKey_append_of_some _ hk
    · intro _; rw [hreg]; exact ⟨rfl, rfl⟩
    · intro dd hd; cases hd

/-- Claim C2, witness: registering "UK Size" into the empty state and then
registering the variant "uksize" returns the first-seen spelling and leaves
the state unchanged. -/
theorem claim_C2_witness :
    registerCol (registerCol ⟨[], []⟩ "UK Size").2 "uksize"
      = registerCol (⟨[], []⟩ : CanonState) "UK Size" :=
  (claim_C2 ⟨[], []⟩ "UK Size").2.1 "uksize" (by decide)

/-- Claim C3: per (identifier, size-column) group, the aggregate is the
comma-joined sequence of the distinct trimmed non-empty qualifying values
in first-occurrence order (deduplication by exact string equality after
trimming, no case-folding of values), and a group with zero qualifying
values yields a null cell; values "6" then "8" aggregate to "6,8". -/
theorem claim_C3 (series : List (Option String)) :
    (aggregateList series = none ↔ qualifyingVals series = [])
    ∧ (qualifyingVals series ≠ [] →
        aggregateList series
          = some (String.intercalate "," (uniqFirst [] (qualifyingVals series))))
    ∧ aggregateList [some "6", some "8"] = some "6,8"
    ∧ aggregateList [some "a", some "A"] = some "a,A"
    ∧ aggregateList [some " 6 ", some "6", some "8"] = some "6,8"
    ∧ aggregateList [some "  ", none] = none := by
  refine ⟨?_, ?_, by decide, by decide, by decide, by decide⟩
  · unfold aggregateList
    by_cases hq : qualifyingVals series = []
    · simp [hq, uniqFirst]
    · have : uniqFirst [] (qualifyingVals series) ≠ [] :=
        fun he => hq ((uniqFirst_nil_iff _).mp he)
      simp [List.isEmpty_iff, this, hq]
  · intro hq
    have : uniqFirst [] (qualifyingVals series) ≠ [] :=
      fun he => hq ((uniqFirst_nil_iff _).mp he)
    unfold aggregateList
    simp [List.isEmpty_iff, this]

/-- Claim C3, witness: the non-empty-group clause applied to the concrete
series `[" 6 ", "6", "8"]`. -/
theorem claim_C3_witness :
    aggregateList [some " 6 ", some "6", some "8"]
      = some (String.intercalate ","
          (uniqFirst [] (qualifyingVals [some " 6 ", some "6", some "8"]))) :=
  (claim_C3 [some " 6 ", some "6", some "8"]).2.1 (by decide)

/-- Claim C4, counterexample: the value "NaN" is not excluded by
aggregation (the placeholder comparison is exact and case-sensitive), while
lowercase "nan" is; the claim asserts both would be excluded alike. -/
theorem claim_C4_cex :
    aggregateList [some "NaN"] = some "NaN"
    ∧ aggregateList [some "nan"] = none := by
  decide

/-- Claim C4, amended: aggregation excludes a value exactly when, after
trimming, it equals one of the lowercase literals "" / "nan" / "none" by
exact case-sensitive comparison; case variants such as "NaN", "None" and
"NONE" are kept. -/
theorem claim_C4_amended (s : String) :
    (aggregateList [some s]
      = if pyStrip s = "" ∨ pyStrip s = "nan" ∨ pyStrip s = "none" then none
        else some (pyStrip s))
    ∧ aggregateList [some "NaN", some "None", some "NONE"] = some "NaN,None,NONE" := by
  constructor
  · have hexcl : isExcludedVal (pyStrip s) = true
        ↔ (pyStrip s = "" ∨ pyStrip s = "nan" ∨ pyStrip s = "none") := by
      simp [isExcludedVal, or_assoc]
    by_cases hc : pyStrip s = "" ∨ pyStrip s = "nan" ∨ pyStrip s = "none"
    · simp [aggregateList, qualifyingVals, hexcl.mpr hc, hc, uniqFirst]
    · have hfalse : isExcludedVal (pyStrip s) = false := by
        rw [← Bool.not_eq_true]; exact fun hh => hc (hexcl.mp hh)
      simp [aggregateList, qualifyingVals, hfalse, hc, uniqFirst, String.intercalate,
        String.intercalate.go]
  · decide

/-- Characterization device for the overwrite loop: the row a single main
row becomes once the whole sample table has been walked — overwritten from
the first sample row carrying its key, untouched when no sample row does. -/
def rewriteRow (entries : List (String × List (Option String)))
    (common mainCols sampleCols : List String)
    (r : String × List (Option String)) : String × List (Option String) :=
  match entries.find? (fun e => r.1 = e.1) with
  | some e => (r.1, overwriteCells common mainCols r.2 sampleCols e.2)
  | none => r

theorem rewriteRow_fst (entries : List (String × List (Option String)))
    (common mainCols sampleCols : List String) (r : String × List (Option String)) :
    (rewriteRow entries common mainCols sampleCols r).1 = r.1 := by
  unfold rewriteRow
  cases entries.find? (fun e => r.1 = e.1) with
  | some e => rfl
  | none => rfl

theorem get?_zip_eq_some {α β : Type} :
    ∀ {l1 : List α} {l2 : List β} {i : Nat} {a : α} {b : β},
      l1.get? i = some a → l2.get? i = some b → (l1.zip l2).get? i = some (a, b)
  | [], _, _, _, _, h1, _ => by simp at h1
  | _ :: _, [], _, _, _, _, h2 => by simp at h2
  | x :: xs, y :: ys, 0, a, b, h1, h2 => by
    simp only [List.get?] at h1 h2
    simp [List.zip_cons_cons, Option.some.inj h1, Option.some.inj h2]
  | x :: xs, y :: ys, i + 1, a, b, h1, h2 => by
    simp only [List.get?] at h1 h2
    simpa [List.zip_cons_cons] using get?_zip_eq_some h1 h2

theorem foldl_applySample_char
    (common sampleCols : List String) :
    ∀ (entries : List (String × List (Option String)))
      (cols : List String) (rows : List (String × List (Option String))),
      (entries.map Prod.fst).Nodup →
      entries.foldl (applySample common sampleCols) ⟨cols, rows⟩
        = ⟨cols, rows.map (rewriteRow entries common cols sampleCols)⟩
  | [], cols, rows, _ => by
    simp only [List.foldl_nil]
    have hid : ∀ r ∈ rows, rewriteRow [] common cols sampleCols r = r :=
      fun r _ => rfl
    rw [List.map_congr_left hid, List.map_id']
  | e :: es, cols, rows, hnd => by
    have hnotin : e.1 ∉ es.map Prod.fst := by
      simp only [List.map_cons, List.nodup_cons] at hnd
      exact hnd.1
    have hnd' : (es.map Prod.fst).Nodup := by
      simp only [List.map_cons, List.nodup_cons] at hnd
      exact hnd.2
    simp only [List.foldl_cons]
    by_cases hA : rows.any (fun r => r.1 = e.1)
    · have happ : applySample common sampleCols ⟨cols, rows⟩ e
          = ⟨cols, rows.map (fun r =>
              if r.1 = e.1 then
                (r.1, overwriteCells common cols r.2 sampleCols e.2)
              else r)⟩ := by
        simp [applySample, hA]
      rw [happ, foldl_applySample_char common sampleCols es cols _ hnd']
      rw [List.map_map]
      apply congrArg (STable.mk cols)
      apply List.map_congr_left
      intro r _
      by_cases hr : r.1 = e.1
      · have hfind : es.find? (fun x => r.1 = x.1) = none := by
          rw [List.find?_eq_none]
          intro x hx
          simp only [decide_eq_true_eq]
          intro hrx
          exact hnotin ((hrx.symm.trans hr) ▸ List.mem_map_of_mem Prod.fst hx)
        have hpos : (e :: es).find? (fun x => decide (r.1 = x.1)) = some e :=
          List.find?_cons_of_pos _ (by simpa using hr)
        simp [Function.comp, rewriteRow, if_pos hr, hfind, hpos]
      · have hstep : (e :: es).find? (fun x => decide (r.1 = x.1))
            = es.find? (fun x => decide (r.1 = x.1)) :=
          List.find?_cons_of_neg _ (by simpa using hr)
        simp [Function.comp, rewriteRow, if_neg hr, hstep]
    · have hA2 : rows.any (fun r => r.1 = e.1) = false :=
        Bool.eq_false_iff.mpr hA
      have happ : applySample common sampleCols ⟨cols, rows⟩ e = ⟨cols, rows⟩ := by
        simp [applySample, hA2]
      rw [happ, foldl_applySample_char common sampleCols es cols _ hnd']
      apply congrArg (STable.mk cols)
      apply List.map_congr_left
      intro r hr
      have hne : ¬(r.1 = e.1) := by
        intro he
        have hx : rows.any (fun r => decide (r.1 = e.1)) = true :=
          List.any_eq_true.mpr ⟨r, hr, by simpa using he⟩
        rw [hA2] at hx
        cases hx
      have hstep : (e :: es).find? (fun x => decide (r.1 = x.1))
          = es.find? (fun x => decide (r.1 = x.1)) :=
        List.find?_cons_of_neg _ (by simpa using hne)
      simp [rewriteRow, hstep]

/-- Claim C5: when the first size-chart sheet has no resolvable identifier
column, the merge fails with the diagnostic listing at most the first five
column names and no output workbook is written; a later sheet that fails
identifier resolution is skipped without error. -/
theorem claim_C5 :
    (∀ (s0 : SheetM) (rest : List SheetM), (findStyleColumn s0.scols).1 = none →
      runMergeModel (s0 :: rest)
        = ⟨false, some (styleErrMsg s0.sname s0.scols), none⟩)
    ∧ (∀ (firstName : String) (pre : List SheetM) (bad : SheetM) (post : List SheetM),
        (findStyleColumn bad.scols).1 = none → bad.sname ≠ firstName →
        processLoop firstName (pre ++ bad :: post) = processLoop firstName (pre ++ post))
    ∧ mkColumnsList ["c1", "c2", "c3", "c4", "c5", "c6", "c7"]
        = "c1, c2, c3, c4, c5, ..." := by
  refine ⟨?_, ?_, by decide⟩
  · intro s0 rest h
    simp [runMergeModel, processLoop, h]
  · intro firstName pre bad post h hne
    induction pre with
    | nil =>
      simp only [List.nil_append, processLoop, h]
      simp [hne]
    | cons p pres ih =>
      simp only [List.cons_append, processLoop, List.append_eq]
      rw [ih]

/-- Claim C5, witness: a first sheet with columns ["A", "B"] fails the
whole merge with the diagnostic message and no output. -/
theorem claim_C5_witness :
    runMergeModel [⟨"Sheet1", ["A", "B"]⟩]
      = ⟨false, some (styleErrMsg "Sheet1" ["A", "B"]), none⟩ :=
  claim_C5.1 ⟨"Sheet1", ["A", "B"]⟩ [] (by decide)

theorem addMissingCols_rows_length :
    ∀ (ordered : List String) (df : DFr),
      (addMissingCols df ordered).rows.length = df.rows.length
  | [], _ => rfl
  | c :: cs, df => by
    unfold addMissingCols
    simp only [List.foldl_cons]
    by_cases hc : c ∈ df.cols
    · simp only [hc, if_true]
      exact addMissingCols_rows_length cs df
    · simp only [hc, if_false]
      have hlen := addMissingCols_rows_length cs
        ⟨df.cols ++ [c], df.rows.map (fun r => r ++ [none])⟩
      unfold addMissingCols at hlen
      rw [hlen]
      simp

/-- Claim C6: on the final Values assembly, the column list equals exactly
the canonical column list (missing columns are added), every row covers
every canonical column, and every null cell is replaced by empty text, so
the Values schema matches the Types sheet canonical columns exactly. -/
theorem claim_C6 (df : DFr) (ordered : List String) :
    (finalizeValues df ordered).cols = ordered
    ∧ (finalizeValues df ordered).rows.length = df.rows.length
    ∧ (∀ r ∈ (finalizeValues df ordered).rows, r.length = ordered.length)
    ∧ (∀ r ∈ (finalizeValues df ordered).rows, ∀ v ∈ r, v.isSome = true)
    ∧ (typesHeader ordered).drop 2 = (finalizeValues df ordered).cols := by
  refine ⟨rfl, by simp [finalizeValues, fillEmpty, selectCols,
    addMissingCols_rows_length], ?_, ?_, rfl⟩
  · intro r hr
    simp only [finalizeValues, fillEmpty, selectCols, List.mem_map] at hr
    obtain ⟨r1, ⟨r2, hr2, rfl⟩, rfl⟩ := hr
    simp
  · intro r hr v hv
    simp only [finalizeValues, fillEmpty, selectCols, List.mem_map] at hr
    obtain ⟨r1, ⟨r2, hr2, rfl⟩, rfl⟩ := hr
    simp only [List.mem_map] at hv
    obtain ⟨w, hw, rfl⟩ := hv
    rfl

/-- Claim C6, witness: finalizing the one-column table (column b, cells x and null) over
the canonical list ["a", "b"] yields rows of length 2 over ["a", "b"]. -/
theorem claim_C6_witness :
    [Option.some "", some "x"].length = ["a", "b"].length :=
  (claim_C6 ⟨["b"], [[some "x"], [none]]⟩ ["a", "b"]).2.2.1
    [some "", some "x"] (by decide)

/-- Claim C7: the Types sheet has header ["Column1", "Column2"] followed by
the canonical columns and exactly three data rows over the canonical
columns: the column names, the literal "mandatory", and "image" exactly for
columns whose name case-insensitively contains "image"/"img"/"url"/"cdn"
(else "string"); for ["styleId", "Product Image URL"] the third row is
["string", "image"]. -/
theorem claim_C7 (ordered : List String) :
    typesHeader ordered = "Column1" :: "Column2" :: ordered
    ∧ (typesRows ordered).length = 3
    ∧ (typesRows ordered).get? 0 = some (none :: none :: ordered.map some)
    ∧ (typesRows ordered).get? 1
        = some (none :: none :: ordered.map (fun _ => some "mandatory"))
    ∧ (typesRows ordered).get? 2
        = some (none :: none :: ordered.map (fun c => some (inferColumnType c)))
    ∧ (∀ c, inferColumnType c = "image"
        ↔ ∃ p ∈ ["image", "img", "url", "cdn"], containsCI c p = true)
    ∧ (∀ c, inferColumnType c ≠ "image" → inferColumnType c = "string")
    ∧ typesRows ["styleId", "Product Image URL"]
        = [ [none, none, some "styleId", some "Product Image URL"],
            [none, none, some "mandatory", some "mandatory"],
            [none, none, some "string", some "image"] ] := by
  refine ⟨rfl, rfl, rfl, rfl, rfl, ?_, ?_, by decide⟩
  · intro c
    unfold inferColumnType
    cases hf : ["image", "img", "url", "cdn"].find? (containsCI c) with
    | none =>
      simp only [List.find?_eq_none] at hf
      constructor
      · intro he; exact absurd he (by decide)
      · rintro ⟨p, hp, hcp⟩
        exact absurd hcp (by simpa using hf p hp)
    | some p =>
      constructor
      · intro _
        exact ⟨p, List.mem_of_find?_eq_some hf, List.find?_some hf⟩
      · intro _; rfl
  · intro c h
    unfold inferColumnType at h ⊢
    cases hf : ["image", "img", "url", "cdn"].find? (containsCI c) with
    | none => rfl
    | some p => rw [hf] at h; exact absurd rfl h

/-- Claim C7, witness: "styleId" contains no image pattern, so its inferred
type is "string". -/
theorem claim_C7_witness : inferColumnType "styleId" = "string" :=
  (claim_C7 ["styleId"]).2.2.2.2.2.2.1 "styleId" (by decide)

theorem getCell_of_not_mem :
    ∀ (cols : List String) (r : List (Option String)) (c : String),
      c ∉ cols → getCell cols r c = none
  | [], _, _, _ => rfl
  | _ :: _, [], _, _ => rfl
  | c0 :: cs, v :: vs, c, h => by
    have h0 : ¬(c0 = c) := fun he => h (he ▸ List.mem_cons_self c0 cs)
    simp only [getCell, h0, if_false]
    exact getCell_of_not_mem cs vs c (fun hm => h (List.mem_cons_of_mem _ hm))

/-- Claim C8: the export reindex outputs the template columns in template
order, appends the input-only columns at the end iff the preserve flag is
set (otherwise drops them), and writes empty text in every cell of a
template column absent from the input. -/
theorem claim_C8 (df : DFr) (target : List String) (preserveUnknown : Bool) :
    ((formatTable df target preserveUnknown).1
      = if preserveUnknown then target ++ df.cols.filter (fun c => c ∉ target)
        else target)
    ∧ (formatTable df target preserveUnknown).1.take target.length = target
    ∧ (formatTable df target false).1 = target
    ∧ (∀ r ∈ (formatTable df target preserveUnknown).2,
        r.length = (formatTable df target preserveUnknown).1.length)
    ∧ (∀ j r, df.rows.get? j = some r →
        ∀ i c, (formatTable df target preserveUnknown).1.get? i = some c →
          c ∉ df.cols →
          ∃ row, (formatTable df target preserveUnknown).2.get? j = some row
            ∧ row.get? i = some "") := by
  refine ⟨?_, ?_, rfl, ?_, ?_⟩
  · cases preserveUnknown with
    | false => rfl
    | true => rfl
  · cases preserveUnknown with
    | false => simp [formatTable, outputColumnsFor]
    | true => simp [formatTable, outputColumnsFor, take_length_append]
  · intro r hr
    simp only [formatTable, List.mem_map] at hr
    obtain ⟨r1, hr1, rfl⟩ := hr
    simp [formatTable]
  · intro j r hj i c hi hc
    refine ⟨(formatTable df target preserveUnknown).1.map
      (fun c => (getCell df.cols r c).getD ""), ?_, ?_⟩
    · simp only [formatTable]
      rw [List.get?_map, hj]
      rfl
    · rw [List.get?_map, hi]
      simp [getCell_of_not_mem df.cols r c hc]

/-- Claim C8, witness: reindexing the one-column table (column b, one cell x) to the template
["a", "b"] without preserving extras writes empty text for the missing
template column "a". -/
theorem claim_C8_witness :
    ∃ row, (formatTable ⟨["b"], [[some "x"]]⟩ ["a", "b"] false).2.get? 0 = some row
      ∧ row.get? 0 = some "" :=
  (claim_C8 ⟨["b"], [[some "x"]]⟩ ["a", "b"] false).2.2.2.2
    0 [some "x"] (by decide) 0 "a" (by decide) (by decide)

/-- Claim C9: the sample-overwrite merge (with the sample keys distinct)
changes only cells at (key, column) positions where the key appears in both
tables and the column is present in both; the column list and the key
sequence of the main table are preserved (sample-only rows are not
appended), rows whose key is absent from the sample are returned verbatim,
and any cell outside a shared key or shared column keeps its value. -/
theorem claim_C9 (main sample : STable)
    (hnd : (sample.srows.map Prod.fst).Nodup)
    (halign : ∀ r ∈ main.srows, r.2.length = main.scols.length) :
    (mergeSampleTables main sample).scols = main.scols
    ∧ (mergeSampleTables main sample).srows.map Prod.fst
        = main.srows.map Prod.fst
    ∧ (mergeSampleTables main sample).srows.length = main.srows.length
    ∧ (∀ i r, main.srows.get? i = some r →
        r.1 ∉ sample.srows.map Prod.fst →
        (mergeSampleTables main sample).srows.get? i = some r)
    ∧ (∀ i r r' j c, main.srows.get? i = some r →
        (mergeSampleTables main sample).srows.get? i = some r' →
        main.scols.get? j = some c →
        (r.1 ∉ sample.srows.map Prod.fst
          ∨ c ∉ commonColumns main.scols sample.scols) →
        r'.2.get? j = r.2.get? j) := by
  have hchar : mergeSampleTables main sample
      = ⟨main.scols, main.srows.map
          (rewriteRow sample.srows (commonColumns main.scols sample.scols)
            main.scols sample.scols)⟩ :=
    foldl_applySample_char (commonColumns main.scols sample.scols) sample.scols
      sample.srows main.scols main.srows hnd
  refine ⟨by rw [hchar], ?_, by rw [hchar]; simp, ?_, ?_⟩
  · rw [hchar]
    show (main.srows.map _).map Prod.fst = _
    rw [List.map_map]
    apply List.map_congr_left
    intro r _
    exact rewriteRow_fst _ _ _ _ r
  · intro i r hi hnot
    have hfind : sample.srows.find? (fun x => decide (r.1 = x.1)) = none := by
      rw [List.find?_eq_none]
      intro x hx
      simp only [decide_eq_true_eq]
      intro he
      exact hnot (he ▸ List.mem_map_of_mem Prod.fst hx)
    rw [hchar]
    show (main.srows.map _).get? i = _
    rw [List.get?_map, hi]
    simp [rewriteRow, hfind]
  · intro i r r2 j c hi hi2 hj hdisj
    rw [hchar] at hi2
    have hi2m : (main.srows.get? i).map
        (rewriteRow sample.srows (commonColumns main.scols sample.scols)
          main.scols sample.scols) = some r2 := by
      rw [← List.get?_map]
      exact hi2
    rw [hi] at hi2m
    have hr2 : rewriteRow sample.srows (commonColumns main.scols sample.scols)
        main.scols sample.scols r = r2 := by
      simpa using hi2m
    cases hdisj with
    | inl hnot =>
      have hfind : sample.srows.find? (fun x => decide (r.1 = x.1)) = none := by
        rw [List.find?_eq_none]
        intro x hx
        simp only [decide_eq_true_eq]
        intro he
        exact hnot (he ▸ List.mem_map_of_mem Prod.fst hx)
      have : r = r2 := by
        rw [← hr2]
        simp [rewriteRow, hfind]
      rw [← this]
    | inr hcnot =>
      cases hfc : sample.srows.find? (fun x => decide (r.1 = x.1)) with
      | none =>
        have : r = r2 := by
          rw [← hr2]
          simp [rewriteRow, hfc]
        rw [← this]
      | some e =>
        have hr2e : r2 = (r.1, overwriteCells
            (commonColumns main.scols sample.scols) main.scols r.2
            sample.scols e.2) := by
          rw [← hr2]
          simp [rewriteRow, hfc]
        have hrmem : r ∈ main.srows := List.get?_mem hi
        have hlen : r.2.length = main.scols.length := halign r hrmem
        have hjlt : j < main.scols.length := by
          by_contra hge
          have hn : main.scols.get? j = none :=
            List.get?_eq_none.mpr (Nat.le_of_not_lt hge)
          rw [hn] at hj
          cases hj
        obtain ⟨w, hw⟩ : ∃ w, r.2.get? j = some w := by
          cases hwc : r.2.get? j with
          | some w => exact ⟨w, rfl⟩
          | none =>
            rw [List.get?_eq_none] at hwc
            omega
        rw [hr2e]
        show (overwriteCells _ _ _ _ _).get? j = _
        unfold overwriteCells
        rw [List.get?_map, get?_zip_eq_some hj hw]
        show some (if (c, w).1 ∈ commonColumns main.scols sample.scols then
          getCell sample.scols e.2 (c, w).1 else (c, w).2) = _
        rw [if_neg hcnot, hw]

/-- Claim C9, witness: merging a sample with key S1 into a main table with
keys S1 and S2 and no shared data column leaves the S2 row verbatim. -/
theorem claim_C9_witness :
    (mergeSampleTables ⟨["colour"], [("S1", [some "red"]), ("S2", [some "blue"])]⟩
      ⟨["size"], [("S1", [some "M"])]⟩).srows.get? 1 = some ("S2", [some "blue"]) :=
  (claim_C9 ⟨["colour"], [("S1", [some "red"]), ("S2", [some "blue"])]⟩
      ⟨["size"], [("S1", [some "M"])]⟩ (by decide) (by decide)).2.2.2.1
    1 ("S2", [some "blue"]) (by decide) (by decide)

/-- Claim C10: when every output row with a missing or blank flag has a
null key, the extraction returns success with rows_extracted = 0 and
missing_count = 0, carrying the result-file path, but hands nothing to the
Excel writer; the outcome is independent of the input workbook (it is
computed before the Values and Types sheets are read). -/
theorem claim_C10 (outRows : List ORow) (input : InputWb) (resultPath : String)
    (h : ∀ r ∈ outRows, flagMissingB r = true → r.okey = none) :
    extractModel outRows input resultPath
      = ⟨true, some resultPath, 0, 0, 0, none⟩
    ∧ (∀ input2, extractModel outRows input2 resultPath
        = extractModel outRows input resultPath) := by
  have hmiss : missingStyleIds outRows = [] := by
    unfold missingStyleIds
    rw [List.filterMap_eq_nil]
    intro r hr
    have hm := List.mem_filter.mp hr
    rw [h r hm.1 hm.2]
  constructor
  · simp [extractModel, hmiss]
  · intro input2
    simp [extractModel, hmiss]

/-- Claim C10, witness: an output table whose only flag-missing row has a
null key yields the zero-count success outcome with no written file. -/
theorem claim_C10_witness :
    extractModel [⟨none, none⟩, ⟨some "S1", some "done"⟩] ⟨[], []⟩ "result.xlsx"
      = ⟨true, some "result.xlsx", 0, 0, 0, none⟩ :=
  (claim_C10 [⟨none, none⟩, ⟨some "S1", some "done"⟩] ⟨[], []⟩ "result.xlsx"
    (by decide)).1

end EcomFmt
